import Mathlib

/-!
Shallow embedding of `src/platform_impl/macos/app_delegate.rs` from the
`tao` windowing library: the macOS application-delegate bridge.

The file models, faithfully to the Rust source:
  * `AuxDelegateState` and its `RefCell` wrapper (Rust `RefCell` semantics:
    `borrow_mut` sets an exclusive-borrow flag and panics — it does not
    return a `Result` — when the flag is already set);
  * the heap of boxed `RefCell<AuxDelegateState>` values created by
    `Box::into_raw` in `new` and reclaimed by `Box::from_raw` in `dealloc`;
  * the dynamic class declaration `APP_DELEGATE_CLASS` built in the
    `lazy_static!` block (selector registrations and the `auxState` ivar);
  * the Apple-event decoding pipeline `parse_url_event` /
    `nsstring_to_string`, including the byte-exact lossy UTF-8 decoding
    performed by `CStr::to_string_lossy` (replacement of maximal invalid
    subparts by U+FFFD, as in Rust's `String::from_utf8_lossy`);
  * the lifecycle callbacks `will_finish_launching`, `did_finish_launching`,
    `handle_url_event_with_reply_event`, `application_will_terminate`,
    with the external `AppState` collaborator (which lives in
    `app_state.rs`, outside the sources at hand) modelled from the spec as
    counters and an event queue.
-/

namespace Tao

/-- `ActivationPolicy` from `src/platform/macos.rs` (values named in the
spec's data model): Regular, Accessory, Prohibited. -/
inductive ActivationPolicy where
  | Regular
  | Accessory
  | Prohibited
deriving DecidableEq

/-- `AuxDelegateState` from `app_delegate.rs`: the deferred configuration
attached to the delegate instance. -/
structure AuxDelegateState where
  activation_policy : ActivationPolicy
  create_default_menu : Bool
deriving DecidableEq

/-- A `RefCell<AuxDelegateState>`: the stored value together with the
dynamic exclusive-borrow flag that `borrow_mut` checks at run time. -/
structure RefCellAux where
  value : AuxDelegateState
  mutBorrowed : Bool
deriving DecidableEq

/-- Outcome of running a piece of Rust code, distinguishing the three ways
control can come back to the caller plus undefined behaviour:
`ok` a normal return value, `err` a typed recoverable error value
(a `Result::Err` handed to the immediate caller), `panicked` a Rust panic
(unwinding, not a typed return value), and `ub` undefined behaviour
(e.g. `Box::from_raw` on a pointer that is not live). -/
inductive CallOutcome (α : Type) where
  | ok : α → CallOutcome α
  | err : String → CallOutcome α
  | panicked : String → CallOutcome α
  | ub : String → CallOutcome α
deriving DecidableEq

/-- Does the outcome hand the immediate caller a typed, recoverable error
value? True only for the `Result::Err`-style constructor; a panic is not a
typed error returned to the caller. -/
def CallOutcome.isRecoverableErr : CallOutcome α → Bool
  | .err _ => true
  | _ => false

/-- `RefCell::borrow_mut` (Rust standard-library semantics, used by
`get_aux_state_mut`): if an exclusive borrow is already held it panics with
the `BorrowMutError` message; otherwise it takes the exclusive borrow. -/
def RefCellAux.borrow_mut (c : RefCellAux) : CallOutcome RefCellAux :=
  if c.mutBorrowed then .panicked "already mutably borrowed: BorrowMutError"
  else .ok { c with mutBorrowed := true }

/-- `RefCell::try_borrow_mut` (Rust standard-library semantics, present in
the library but NOT the call used by `get_aux_state_mut`): returns a typed
`BorrowMutError` value instead of panicking. Included so that the
distinction between a typed error and a panic is expressible. -/
def RefCellAux.try_borrow_mut (c : RefCellAux) : CallOutcome RefCellAux :=
  if c.mutBorrowed then .err "BorrowMutError"
  else .ok { c with mutBorrowed := true }

/-! ### The heap of boxed `RefCell<AuxDelegateState>` values -/

/-- Association-list lookup on the heap cells. -/
def assocLookup : List (Nat × RefCellAux) → Nat → Option RefCellAux
  | [], _ => none
  | (q, c) :: rest, p => if p = q then some c else assocLookup rest p

/-- Association-list update (used when a borrow flag changes). -/
def assocUpdate : List (Nat × RefCellAux) → Nat → RefCellAux → List (Nat × RefCellAux)
  | [], _, _ => []
  | (q, c) :: rest, p, c' => if p = q then (q, c') :: rest else (q, c) :: assocUpdate rest p c'

/-- Association-list removal (used by `Box::from_raw` reclamation). -/
def assocRemove : List (Nat × RefCellAux) → Nat → List (Nat × RefCellAux)
  | [], _ => []
  | (q, c) :: rest, p => if p = q then rest else (q, c) :: assocRemove rest p

/-- The allocation state: live boxed cells addressed by nonzero pointers,
plus the next fresh pointer. -/
structure Heap where
  cells : List (Nat × RefCellAux)
  next : Nat
deriving DecidableEq

/-- Look a pointer up among the live cells. -/
def Heap.lookup (h : Heap) (p : Nat) : Option RefCellAux :=
  assocLookup h.cells p

/-- `Box::into_raw (Box::new c)`: allocate a fresh cell, returning its
pointer. -/
def Heap.alloc (h : Heap) (c : RefCellAux) : Nat × Heap :=
  (h.next, ⟨h.cells ++ [(h.next, c)], h.next + 1⟩)

/-- Drop of the box rebuilt by `Box::from_raw p`: frees the cell if `p` is
live, and is undefined behaviour (double free / invalid pointer) otherwise. -/
def Heap.free (h : Heap) (p : Nat) : CallOutcome Heap :=
  match h.lookup p with
  | some _ => .ok ⟨assocRemove h.cells p, h.next⟩
  | none => .ub "Box::from_raw on a pointer that is not live"

/-- The empty heap; pointers start at 1 so that 0 plays the null pointer. -/
def emptyHeap : Heap := ⟨[], 1⟩

/-- Heap well-formedness: the next pointer is nonzero and strictly above
every live pointer (so freshly allocated pointers are genuinely fresh). -/
def Heap.WF (h : Heap) : Prop :=
  0 < h.next ∧ ∀ pc ∈ h.cells, pc.1 < h.next

instance (h : Heap) : Decidable h.WF := by
  unfold Heap.WF; infer_instance

/-! ### The delegate instance and its callbacks on the aux state -/

/-- A native `TaoAppDelegate` instance, reduced to what the bridge reads of
it: the value of its `auxState` ivar (a type-punned pointer; 0 is null). -/
structure Instance where
  auxStatePtr : Nat
deriving DecidableEq

/-- `new` (the registered class method): `alloc`/`init` the instance, then
`set_ivar` the `auxState` slot to
`Box::into_raw (Box::new (RefCell::new (AuxDelegateState { activation_policy: Regular, create_default_menu: true })))`. -/
def new (h : Heap) : Instance × Heap :=
  let (p, h') := h.alloc ⟨⟨.Regular, true⟩, false⟩
  (⟨p⟩, h')

/-- `get_aux_state_mut`: read the `auxState` ivar and `borrow_mut` the
`RefCell` behind it. Dereferencing a pointer that is not live is the
undefined behaviour the source's safety comment warns about; on success the
heap records the now-held exclusive borrow. -/
def get_aux_state_mut (this : Instance) (h : Heap) : CallOutcome (AuxDelegateState × Heap) :=
  match h.lookup this.auxStatePtr with
  | none => .ub "auxState ivar does not point at a live RefCell"
  | some cell =>
    match cell.borrow_mut with
    | .ok cell' => .ok (cell'.value, ⟨assocUpdate h.cells this.auxStatePtr cell', h.next⟩)
    | .err e => .err e
    | .panicked m => .panicked m
    | .ub m => .ub m

/-- `dealloc` (the registered `dealloc` override): read the `auxState` ivar
and rebuild and drop the box with `Box::from_raw`, reclaiming the cell. The
source does not write to the ivar, so the instance comes back with its slot
unchanged. -/
def dealloc (this : Instance) (h : Heap) : CallOutcome (Instance × Heap) :=
  match h.free this.auxStatePtr with
  | .ok h' => .ok (this, h')
  | .err e => .err e
  | .panicked m => .panicked m
  | .ub m => .ub m

/-! ### Lossy UTF-8 decoding, byte-exact after `CStr::to_string_lossy`

Rust's `to_string_lossy` runs `String::from_utf8_lossy`, which decodes
well-formed scalar sequences and replaces each maximal invalid subpart by
one U+FFFD, advancing by the `error_len` of the underlying UTF-8 validation
(1 for a bad leading or second byte, 2 for a bad third byte, 3 for a bad
fourth byte) and replacing an incomplete sequence at the end of input by a
single U+FFFD. -/

/-- The Unicode replacement character U+FFFD. -/
def repChar : Char := Char.ofNat 0xFFFD

/-- Is the byte a UTF-8 continuation byte (`0x80..=0xBF`)? -/
def cont (b : Nat) : Bool := decide (0x80 ≤ b) && decide (b ≤ 0xBF)

/-- Allowed second byte of a three-byte sequence, per leading byte
(Rust `run_utf8_validation`): `0xE0` wants `0xA0..=0xBF`, `0xED` wants
`0x80..=0x9F` (excluding surrogates), the rest want a continuation byte. -/
def valid3Second (b b2 : Nat) : Bool :=
  if b = 0xE0 then decide (0xA0 ≤ b2) && decide (b2 ≤ 0xBF)
  else if b = 0xED then decide (0x80 ≤ b2) && decide (b2 ≤ 0x9F)
  else cont b2

/-- Allowed second byte of a four-byte sequence, per leading byte:
`0xF0` wants `0x90..=0xBF`, `0xF4` wants `0x80..=0x8F` (capping at
U+10FFFF), the rest want a continuation byte. -/
def valid4Second (b b2 : Nat) : Bool :=
  if b = 0xF0 then decide (0x90 ≤ b2) && decide (b2 ≤ 0xBF)
  else if b = 0xF4 then decide (0x80 ≤ b2) && decide (b2 ≤ 0x8F)
  else cont b2

/-- `String::from_utf8_lossy`, written with an explicit fuel so the
recursion is structural (every step consumes at least one byte and exactly
one unit of fuel, so fuel equal to the input length is always enough; the
fuel-exhausted branch is unreachable from `lossyDecode`). -/
def lossyDecodeF : Nat → List Nat → List Char
  | 0, _ => []
  | _ + 1, [] => []
  | fuel + 1, b :: rest =>
    if b ≤ 0x7F then Char.ofNat b :: lossyDecodeF fuel rest
    else if 0xC2 ≤ b ∧ b ≤ 0xDF then
      match rest with
      | [] => [repChar]
      | b2 :: rest2 =>
        if cont b2 then Char.ofNat ((b - 0xC0) * 0x40 + (b2 - 0x80)) :: lossyDecodeF fuel rest2
        else repChar :: lossyDecodeF fuel (b2 :: rest2)
    else if 0xE0 ≤ b ∧ b ≤ 0xEF then
      match rest with
      | [] => [repChar]
      | b2 :: rest2 =>
        if valid3Second b b2 then
          match rest2 with
          | [] => [repChar]
          | b3 :: rest3 =>
            if cont b3 then
              Char.ofNat ((b - 0xE0) * 0x1000 + (b2 - 0x80) * 0x40 + (b3 - 0x80)) ::
                lossyDecodeF fuel rest3
            else repChar :: lossyDecodeF fuel (b3 :: rest3)
        else repChar :: lossyDecodeF fuel (b2 :: rest2)
    else if 0xF0 ≤ b ∧ b ≤ 0xF4 then
      match rest with
      | [] => [repChar]
      | b2 :: rest2 =>
        if valid4Second b b2 then
          match rest2 with
          | [] => [repChar]
          | b3 :: rest3 =>
            if cont b3 then
              match rest3 with
              | [] => [repChar]
              | b4 :: rest4 =>
                if cont b4 then
                  Char.ofNat ((b - 0xF0) * 0x40000 + (b2 - 0x80) * 0x1000 +
                      (b3 - 0x80) * 0x40 + (b4 - 0x80)) :: lossyDecodeF fuel rest4
                else repChar :: lossyDecodeF fuel (b4 :: rest4)
            else repChar :: lossyDecodeF fuel (b3 :: rest3)
        else repChar :: lossyDecodeF fuel (b2 :: rest2)
    else repChar :: lossyDecodeF fuel rest

/-- `String::from_utf8_lossy` on a byte sequence, producing the character
list of the resulting string. -/
def lossyDecode (bs : List Nat) : List Char :=
  lossyDecodeF bs.length bs

/-- UTF-8 validity of a byte sequence (Rust `run_utf8_validation` reporting
no error), with exactly the branch structure of `lossyDecode`. -/
def validUtf8 : List Nat → Bool
  | [] => true
  | b :: rest =>
    if b ≤ 0x7F then validUtf8 rest
    else if 0xC2 ≤ b ∧ b ≤ 0xDF then
      match rest with
      | [] => false
      | b2 :: rest2 => if cont b2 then validUtf8 rest2 else false
    else if 0xE0 ≤ b ∧ b ≤ 0xEF then
      match rest with
      | [] => false
      | b2 :: rest2 =>
        if valid3Second b b2 then
          match rest2 with
          | [] => false
          | b3 :: rest3 => if cont b3 then validUtf8 rest3 else false
        else false
    else if 0xF0 ≤ b ∧ b ≤ 0xF4 then
      match rest with
      | [] => false
      | b2 :: rest2 =>
        if valid4Second b b2 then
          match rest2 with
          | [] => false
          | b3 :: rest3 =>
            if cont b3 then
              match rest3 with
              | [] => false
              | b4 :: rest4 => if cont b4 then validUtf8 rest4 else false
            else false
        else false
    else false

/-- UTF-8 encoding of one character (standard encoding; used only to state
hypotheses about native strings whose content is a given string). -/
def encodeChar (c : Char) : List Nat :=
  let n := c.toNat
  if n ≤ 0x7F then [n]
  else if n ≤ 0x7FF then [0xC0 + n / 0x40, 0x80 + n % 0x40]
  else if n ≤ 0xFFFF then [0xE0 + n / 0x1000, 0x80 + (n / 0x40) % 0x40, 0x80 + n % 0x40]
  else [0xF0 + n / 0x40000, 0x80 + (n / 0x1000) % 0x40, 0x80 + (n / 0x40) % 0x40,
    0x80 + n % 0x40]

/-- UTF-8 encoding of a string. -/
def utf8Encode (s : String) : List Nat :=
  (s.data.map encodeChar).flatten

/-! ### Apple events and the URL event decoder -/

/-- `kInternetEventClass` from the source: `0x4755524c`. -/
def kInternetEventClass : Nat := 0x4755524c

/-- `kAEGetURL` from the source: `0x4755524c`. -/
def kAEGetURL : Nat := 0x4755524c

/-- `keyDirectObject` from the source: `0x2d2d2d2d`. -/
def keyDirectObject : Nat := 0x2d2d2d2d

/-- An `NSString` object as the bridge reads it: the bytes its `UTF8String`
message yields, `none` when that C-string pointer is null. -/
structure NSStringObj where
  utf8Bytes : Option (List Nat)
deriving DecidableEq

/-- The keyed sub-descriptor returned by `paramDescriptorForKeyword:`, as
the bridge reads it: its `stringValue` (`none` models a nil `NSString`). -/
structure SubDescObj where
  stringValue : Option NSStringObj
deriving DecidableEq

/-- An `NSAppleEventDescriptor` as the bridge reads it: the `eventClass`
and `eventID` tags (u32 values) and the `keyDirectObject` sub-descriptor
(`none` models `paramDescriptorForKeyword:` answering nil). -/
structure AppleEventObj where
  eventClass : Nat
  eventID : Nat
  subevent : Option SubDescObj
deriving DecidableEq

/-- `nsstring_to_string`: send `UTF8String` to the (possibly nil) NSString;
a message to nil answers a null pointer. If the C string is non-null,
convert with `CStr::from_ptr(..).to_string_lossy().into_owned()`;
otherwise return the empty string. -/
def nsstring_to_string (nsstring : Option NSStringObj) : String :=
  let cstr : Option (List Nat) :=
    match nsstring with
    | none => none
    | some s => s.utf8Bytes
  match cstr with
  | some bytes => String.mk (lossyDecode bytes)
  | none => ""

/-- `parse_url_event`: null event gives the empty string; an event whose
`eventClass` or `eventID` differs from the expected constants gives the
empty string; otherwise the `keyDirectObject` parameter's `stringValue`
is converted by `nsstring_to_string` (a message sent to a nil
sub-descriptor answers nil). -/
def parse_url_event (event : Option AppleEventObj) : String :=
  match event with
  | none => ""
  | some ev =>
    if ev.eventClass ≠ kInternetEventClass ∨ ev.eventID ≠ kAEGetURL then ""
    else
      let nsstring : Option NSStringObj :=
        match ev.subevent with
        | none => none
        | some sub => sub.stringValue
      nsstring_to_string nsstring

/-! ### The external `AppState` collaborator and the lifecycle callbacks

`AppState` lives in `app_state.rs`, outside the sources at hand; per the
spec it is the external collaborator offering `Enqueue(event)`,
`MarkLaunched(native_instance_handle)` and `MarkExiting()`. It is
modelled from the spec as an event queue plus invocation records. -/

/-- `Event::UrlEvent(url)` as enqueued by the URL handler. -/
inductive Event where
  | UrlEvent : String → Event
deriving DecidableEq

/-- `EventWrapper::StaticEvent` around an event. -/
inductive EventWrapper where
  | StaticEvent : Event → EventWrapper
deriving DecidableEq

/-- Modelled from the spec: the external `AppState` collaborator
(`app_state.rs`, not among the sources) reduced to its interface —
the pending event queue fed by `Enqueue`, the record of `MarkLaunched`
invocations (with the instance handle each was passed), the count of
`MarkExiting` invocations, and the count of URL-handler registrations
made on the shared `NSAppleEventManager`. -/
structure AppStateModel where
  pending : List EventWrapper
  launchedWith : List Instance
  exits : Nat
  urlHandlerRegs : Nat
deriving DecidableEq

/-- The collaborator state before any callback ran. -/
def initialAppState : AppStateModel := ⟨[], [], 0, 0⟩

/-- Modelled from the spec: `AppState::queue_event` — `Enqueue(event)`
appends one event to the pending queue. -/
def AppState.queue_event (s : AppStateModel) (w : EventWrapper) : AppStateModel :=
  { s with pending := s.pending ++ [w] }

/-- Modelled from the spec: `AppState::launched(this)` — `MarkLaunched`
records one invocation together with the instance handle it was passed. -/
def AppState.launched (s : AppStateModel) (this : Instance) : AppStateModel :=
  { s with launchedWith := s.launchedWith ++ [this] }

/-- Modelled from the spec: `AppState::exit()` — `MarkExiting` records one
invocation. -/
def AppState.exit (s : AppStateModel) : AppStateModel :=
  { s with exits := s.exits + 1 }

/-- `will_finish_launching`: registers `this` as handler for the
(`kInternetEventClass`, `kAEGetURL`) pair on the shared
`NSAppleEventManager` (one more registration; not guarded against being
called twice). -/
def will_finish_launching (_this : Instance) (s : AppStateModel) : AppStateModel :=
  { s with urlHandlerRegs := s.urlHandlerRegs + 1 }

/-- `did_finish_launching`: calls `AppState::launched(this)`. -/
def did_finish_launching (this : Instance) (s : AppStateModel) : AppStateModel :=
  AppState.launched s this

/-- `application_will_terminate`: calls `AppState::exit()`. -/
def application_will_terminate (s : AppStateModel) : AppStateModel :=
  AppState.exit s

/-- `handle_url_event_with_reply_event`: decode the event with
`parse_url_event` and unconditionally enqueue
`EventWrapper::StaticEvent (Event::UrlEvent url)`. -/
def handle_url_event_with_reply_event (s : AppStateModel) (event : Option AppleEventObj) :
    AppStateModel :=
  AppState.queue_event s (.StaticEvent (.UrlEvent (parse_url_event event)))

/-! ### The dynamic delegate class declaration -/

/-- A `ClassDecl` under construction: the class name and superclass plus
the selectors and ivars registered so far, in registration order. -/
structure ClassDecl where
  name : String
  superclass : String
  classMethods : List String
  methods : List String
  ivars : List String
deriving DecidableEq

/-- `ClassDecl::new(name, superclass)`. -/
def ClassDecl.decl_new (name superclass : String) : ClassDecl :=
  ⟨name, superclass, [], [], []⟩

/-- `decl.add_class_method(sel, ..)`. -/
def ClassDecl.add_class_method (d : ClassDecl) (sel : String) : ClassDecl :=
  { d with classMethods := d.classMethods ++ [sel] }

/-- `decl.add_method(sel, ..)`. -/
def ClassDecl.add_method (d : ClassDecl) (sel : String) : ClassDecl :=
  { d with methods := d.methods ++ [sel] }

/-- `decl.add_ivar::<*mut c_void>(name)`. -/
def ClassDecl.add_ivar (d : ClassDecl) (ivar : String) : ClassDecl :=
  { d with ivars := d.ivars ++ [ivar] }

/-- The class once `decl.register()` ran: immutable from then on (it only
wraps the finished declaration). -/
structure RegisteredClass where
  decl : ClassDecl
deriving DecidableEq

/-- `decl.register()`. -/
def ClassDecl.register (d : ClassDecl) : RegisteredClass := ⟨d⟩

/-- The initializer body of the `lazy_static!` block for
`APP_DELEGATE_CLASS`, in source order: declare `TaoAppDelegate` deriving
`NSResponder`, add the `new` class method, the `dealloc`,
`applicationDidFinishLaunching:`, `applicationWillFinishLaunching:`,
`handleUrlEvent:withReplyEvent:` and `applicationWillTerminate:` instance
methods and the `auxState` ivar, then register. -/
def buildAppDelegateClass : RegisteredClass :=
  ((((((((ClassDecl.decl_new "TaoAppDelegate" "NSResponder").add_class_method
    "new").add_method "dealloc").add_method
    "applicationDidFinishLaunching:").add_method
    "applicationWillFinishLaunching:").add_method
    "handleUrlEvent:withReplyEvent:").add_method
    "applicationWillTerminate:").add_ivar "auxState").register

/-- A `lazy_static` cell for `APP_DELEGATE_CLASS`: the cached value, if
built already, and how many times the initializer has run. -/
structure LazyCell where
  value : Option RegisteredClass
  inits : Nat
deriving DecidableEq

/-- Forcing the `lazy_static`: return the cached class, or run the
initializer exactly once and cache the result. -/
def LazyCell.force (c : LazyCell) : RegisteredClass × LazyCell :=
  match c.value with
  | some v => (v, c)
  | none => (buildAppDelegateClass, ⟨some buildAppDelegateClass, c.inits + 1⟩)

/-- The untouched `lazy_static` cell at process start. -/
def initialLazyCell : LazyCell := ⟨none, 0⟩

/-- Force the `lazy_static` cell `n` times in a row. -/
def forceN : Nat → LazyCell → LazyCell
  | 0, c => c
  | n + 1, c => forceN n c.force.2

/-! ### The spec's lifecycle scenario -/

/-- The spec's scenario: construct an instance, run will-finish-launching,
did-finish-launching, will-terminate, then destroy the instance, starting
from the empty heap and the untouched collaborator. -/
def lifecycleScenario : CallOutcome (Instance × Heap × AppStateModel) :=
  let (inst, h1) := new emptyHeap
  let s1 := will_finish_launching inst initialAppState
  let s2 := did_finish_launching inst s1
  let s3 := application_will_terminate s2
  match dealloc inst h1 with
  | .ok (inst', h2) => .ok (inst', h2, s3)
  | .err e => .err e
  | .panicked m => .panicked m
  | .ub m => .ub m

/-! ### Helper lemmas -/

/-- A key not among the stored keys looks up to nothing. -/
theorem assocLookup_eq_none_of_not_mem (cells : List (Nat × RefCellAux)) (p : Nat)
    (h : p ∉ cells.map Prod.fst) : assocLookup cells p = none := by
  induction cells with
  | nil => rfl
  | cons qc rest ih =>
    obtain ⟨q, c0⟩ := qc
    simp only [List.map_cons, List.mem_cons, not_or] at h
    simpa [assocLookup, h.1] using ih h.2

/-- Looking up a key that is absent from the front finds the appended cell. -/
theorem assocLookup_append_self (cells : List (Nat × RefCellAux)) (p : Nat) (c : RefCellAux)
    (habs : assocLookup cells p = none) :
    assocLookup (cells ++ [(p, c)]) p = some c := by
  induction cells with
  | nil => simp [assocLookup]
  | cons qc rest ih =>
    obtain ⟨q, c0⟩ := qc
    by_cases hpq : p = q
    · simp [assocLookup, hpq] at habs
    · simp only [assocLookup, if_neg hpq] at habs
      simpa [assocLookup, hpq] using ih habs

/-- A key strictly above every present key is absent. -/
theorem assocLookup_none_of_lt (cells : List (Nat × RefCellAux)) (n : Nat)
    (hlt : ∀ pc ∈ cells, pc.1 < n) : assocLookup cells n = none := by
  apply assocLookup_eq_none_of_not_mem
  intro hmem
  obtain ⟨pc, hpc, hfst⟩ := List.mem_map.mp hmem
  exact absurd (hfst ▸ hlt pc hpc) (lt_irrefl n)

/-- Removing a key removes it for good when the keys are distinct. -/
theorem assocLookup_remove_self (cells : List (Nat × RefCellAux)) (p : Nat)
    (hnodup : (cells.map Prod.fst).Nodup) :
    assocLookup (assocRemove cells p) p = none := by
  induction cells with
  | nil => rfl
  | cons qc rest ih =>
    obtain ⟨q, c0⟩ := qc
    simp only [List.map_cons, List.nodup_cons] at hnodup
    by_cases hpq : p = q
    · subst hpq
      simpa [assocRemove] using assocLookup_eq_none_of_not_mem rest p hnodup.1
    · simp only [assocRemove, if_neg hpq, assocLookup, if_neg hpq]
      exact ih hnodup.2

/-- Invalid UTF-8 input forces at least one replacement character into the
lossily decoded output (by induction over the decoder's branch structure:
every branch on which validation reports an error emits `repChar`). -/
theorem repChar_mem_lossyDecodeF_of_invalid (fuel : Nat) (bs : List Nat) :
    validUtf8 bs = false → bs.length ≤ fuel → repChar ∈ lossyDecodeF fuel bs := by
  induction fuel, bs using lossyDecodeF.induct with
  | case1 x =>
    intro hv hlen
    have hx : x = [] := List.eq_nil_of_length_eq_zero (Nat.le_zero.mp hlen)
    subst hx
    exact Bool.noConfusion hv
  | case2 n =>
    intro hv hlen
    exact Bool.noConfusion hv
  | case3 fuel b rest hb ih =>
    intro hv hlen
    rw [validUtf8.eq_def] at hv
    simp only [if_pos hb] at hv
    simp only [lossyDecodeF, if_pos hb]
    exact List.mem_cons_of_mem _ (ih hv (by simp only [List.length_cons] at hlen; omega))
  | case4 fuel b hb hw =>
    intro hv hlen
    simp only [lossyDecodeF, if_neg hb, if_pos hw]
    simp
  | case5 fuel b hb hw b2 rest2 hc ih =>
    intro hv hlen
    rw [validUtf8.eq_def] at hv
    simp only [if_neg hb, if_pos hw, hc, if_pos rfl] at hv
    simp only [lossyDecodeF, if_neg hb, if_pos hw, hc, if_pos rfl]
    exact List.mem_cons_of_mem _ (ih hv (by simp only [List.length_cons] at hlen; omega))
  | case6 fuel b hb hw b2 rest2 hc ih =>
    intro hv hlen
    simp only [lossyDecodeF, if_neg hb, if_pos hw, hc]
    simp
  | case7 fuel b hb hw h3 =>
    intro hv hlen
    simp only [lossyDecodeF, if_neg hb, if_neg hw, if_pos h3]
    simp
  | case8 fuel b hb hw h3 b2 hs =>
    intro hv hlen
    simp only [lossyDecodeF, if_neg hb, if_neg hw, if_pos h3, hs, if_pos rfl]
    simp
  | case9 fuel b hb hw h3 b2 hs b3 rest3 hc3 ih =>
    intro hv hlen
    rw [validUtf8.eq_def] at hv
    simp only [if_neg hb, if_neg hw, if_pos h3, hs, if_pos rfl, hc3] at hv
    simp only [lossyDecodeF, if_neg hb, if_neg hw, if_pos h3, hs, if_pos rfl, hc3]
    exact List.mem_cons_of_mem _ (ih hv (by simp only [List.length_cons] at hlen; omega))
  | case10 fuel b hb hw h3 b2 hs b3 rest3 hc3 ih =>
    intro hv hlen
    simp only [lossyDecodeF, if_neg hb, if_neg hw, if_pos h3, hs, if_pos rfl, hc3]
    simp
  | case11 fuel b hb hw h3 b2 rest2 hs ih =>
    intro hv hlen
    simp only [lossyDecodeF, if_neg hb, if_neg hw, if_pos h3, hs]
    simp
  | case12 fuel b hb hw h3 h4 =>
    intro hv hlen
    simp only [lossyDecodeF, if_neg hb, if_neg hw, if_neg h3, if_pos h4]
    simp
  | case13 fuel b hb hw h3 h4 b2 hs =>
    intro hv hlen
    simp only [lossyDecodeF, if_neg hb, if_neg hw, if_neg h3, if_pos h4, hs, if_pos rfl]
    simp
  | case14 fuel b hb hw h3 h4 b2 hs b3 hc3 =>
    intro hv hlen
    simp only [lossyDecodeF, if_neg hb, if_neg hw, if_neg h3, if_pos h4, hs, if_pos rfl, hc3]
    simp
  | case15 fuel b hb hw h3 h4 b2 hs b3 hc3 b4 rest4 hc4 ih =>
    intro hv hlen
    rw [validUtf8.eq_def] at hv
    simp only [if_neg hb, if_neg hw, if_neg h3, if_pos h4, hs, if_pos rfl, hc3, hc4] at hv
    simp only [lossyDecodeF, if_neg hb, if_neg hw, if_neg h3, if_pos h4, hs, if_pos rfl, hc3,
      hc4]
    exact List.mem_cons_of_mem _ (ih hv (by simp only [List.length_cons] at hlen; omega))
  | case16 fuel b hb hw h3 h4 b2 hs b3 hc3 b4 rest4 hc4 ih =>
    intro hv hlen
    simp only [lossyDecodeF, if_neg hb, if_neg hw, if_neg h3, if_pos h4, hs, if_pos rfl, hc3,
      hc4]
    simp
  | case17 fuel b hb hw h3 h4 b2 hs b3 rest3 hc3 ih =>
    intro hv hlen
    simp only [lossyDecodeF, if_neg hb, if_neg hw, if_neg h3, if_pos h4, hs, if_pos rfl, hc3]
    simp
  | case18 fuel b hb hw h3 h4 b2 rest2 hs ih =>
    intro hv hlen
    simp only [lossyDecodeF, if_neg hb, if_neg hw, if_neg h3, if_pos h4, hs]
    simp
  | case19 fuel b rest hb hw h3 h4 ih =>
    intro hv hlen
    simp only [lossyDecodeF, if_neg hb, if_neg hw, if_neg h3, if_neg h4]
    simp

/-- Forcing an already-built `lazy_static` cell any number of times changes
nothing: the initializer never reruns. -/
theorem forceN_cached (n : Nat) (v : RegisteredClass) (k : Nat) :
    forceN n ⟨some v, k⟩ = ⟨some v, k⟩ := by
  induction n with
  | zero => rfl
  | succ n ih => simpa [forceN, LazyCell.force] using ih

/-! ### Claims -/

/-- C1 (amended): a re-entrant call to `get_aux_state_mut` while the same
instance's `AuxDelegateState` borrow is still held fails fast with the
`RefCell` borrow-conflict panic (`BorrowMutError`), leaving the stored
state untouched; it is a panic, not a recoverable typed error returned to
the immediate caller. -/
theorem tao_C1_reentrant_borrow_panics (this : Instance) (h : Heap) (cell : RefCellAux)
    (hlook : h.lookup this.auxStatePtr = some cell) (hheld : cell.mutBorrowed = true) :
    get_aux_state_mut this h = .panicked "already mutably borrowed: BorrowMutError" ∧
    (get_aux_state_mut this h).isRecoverableErr = false := by
  have hpan : get_aux_state_mut this h = .panicked "already mutably borrowed: BorrowMutError" := by
    simp [get_aux_state_mut, hlook, RefCellAux.borrow_mut, hheld]
  exact ⟨hpan, by simp [hpan, CallOutcome.isRecoverableErr]⟩

/-- C1 witness: on the concrete one-cell heap whose cell is already
mutably borrowed, `get_aux_state_mut` panics. -/
theorem tao_C1_witness :
    Heap.lookup ⟨[(1, ⟨⟨.Regular, true⟩, true⟩)], 2⟩ (Instance.mk 1).auxStatePtr =
      some ⟨⟨.Regular, true⟩, true⟩ ∧
    get_aux_state_mut ⟨1⟩ ⟨[(1, ⟨⟨.Regular, true⟩, true⟩)], 2⟩ =
      .panicked "already mutably borrowed: BorrowMutError" :=
  ⟨by decide,
    (tao_C1_reentrant_borrow_panics ⟨1⟩ ⟨[(1, ⟨⟨.Regular, true⟩, true⟩)], 2⟩
      ⟨⟨.Regular, true⟩, true⟩ (by decide) rfl).1⟩

/-- C1 counterexample to the claim as stated: after a first successful
borrow of a freshly constructed instance's state, the re-entrant second
call comes back as a panic and NOT as a recoverable typed error
propagating to the immediate caller (`isRecoverableErr` is false). -/
theorem tao_C1_counterexample :
    get_aux_state_mut ⟨1⟩ ⟨[(1, ⟨⟨.Regular, true⟩, false⟩)], 2⟩ =
      .ok (⟨.Regular, true⟩, ⟨[(1, ⟨⟨.Regular, true⟩, true⟩)], 2⟩) ∧
    get_aux_state_mut ⟨1⟩ ⟨[(1, ⟨⟨.Regular, true⟩, true⟩)], 2⟩ =
      .panicked "already mutably borrowed: BorrowMutError" ∧
    (get_aux_state_mut ⟨1⟩ ⟨[(1, ⟨⟨.Regular, true⟩, true⟩)], 2⟩).isRecoverableErr = false := by
  decide

/-- C2 (amended): `dealloc` reclaims the boxed `AuxiliaryState` exactly
once per invocation, but it does not null out or invalidate the
attached-data slot — the instance comes back with its `auxState` pointer
unchanged and now dangling, so a second invocation of `dealloc` on the
same instance reaches `Box::from_raw` on a dead pointer (double-free
undefined behaviour); double destruction is prevented only by the OS
contract of calling `dealloc` at most once, not structurally. -/
theorem tao_C2_dealloc_reclaims_once_slot_dangles (this : Instance) (h : Heap)
    (cell : RefCellAux) (hnodup : (h.cells.map Prod.fst).Nodup)
    (hlook : h.lookup this.auxStatePtr = some cell) :
    dealloc this h = .ok (this, ⟨assocRemove h.cells this.auxStatePtr, h.next⟩) ∧
    dealloc this ⟨assocRemove h.cells this.auxStatePtr, h.next⟩ =
      .ub "Box::from_raw on a pointer that is not live" := by
  constructor
  · simp [dealloc, Heap.free, hlook]
  · have hnone : assocLookup (assocRemove h.cells this.auxStatePtr) this.auxStatePtr = none :=
      assocLookup_remove_self _ _ hnodup
    simp [dealloc, Heap.free, Heap.lookup, hnone]

/-- C2 witness: on the concrete one-cell heap, `dealloc` reclaims the
cell and returns the instance with its slot untouched. -/
theorem tao_C2_witness :
    (((⟨[(1, ⟨⟨.Regular, true⟩, false⟩)], 2⟩ : Heap).cells.map Prod.fst).Nodup ∧
      Heap.lookup ⟨[(1, ⟨⟨.Regular, true⟩, false⟩)], 2⟩ (Instance.mk 1).auxStatePtr =
        some ⟨⟨.Regular, true⟩, false⟩) ∧
    dealloc ⟨1⟩ ⟨[(1, ⟨⟨.Regular, true⟩, false⟩)], 2⟩ =
      .ok (⟨1⟩, ⟨assocRemove [(1, ⟨⟨.Regular, true⟩, false⟩)] 1, 2⟩) :=
  ⟨⟨by decide, by decide⟩,
    (tao_C2_dealloc_reclaims_once_slot_dangles ⟨1⟩ ⟨[(1, ⟨⟨.Regular, true⟩, false⟩)], 2⟩
      ⟨⟨.Regular, true⟩, false⟩ (by decide) (by decide)).1⟩

/-- C2 counterexample to the claim as stated: destroy the instance built
by `new` — the returned instance's attached-data slot still holds the old
nonzero pointer (it is not nulled out / invalidated), and a second
invocation of the destruction callback reaches the same pointer again and
is a double free, so the second reclaim is not structurally prevented. -/
theorem tao_C2_counterexample :
    new emptyHeap = (⟨1⟩, ⟨[(1, ⟨⟨.Regular, true⟩, false⟩)], 2⟩) ∧
    dealloc ⟨1⟩ ⟨[(1, ⟨⟨.Regular, true⟩, false⟩)], 2⟩ = .ok (⟨1⟩, ⟨[], 2⟩) ∧
    (Instance.mk 1).auxStatePtr ≠ 0 ∧
    dealloc ⟨1⟩ ⟨[], 2⟩ = .ub "Box::from_raw on a pointer that is not live" := by
  decide

/-- C3: for a non-null event carrying the expected class and id tags whose
keyed direct-object sub-parameter reads as the native string
"https://example.com/callback", `parse_url_event` returns exactly
"https://example.com/callback"; and when the direct object's native
string is null (a null `UTF8String`), it returns the empty string. -/
theorem tao_C3_wellformed_url_event_decodes (ev : AppleEventObj) (sub : SubDescObj)
    (ns : NSStringObj) (hc : ev.eventClass = kInternetEventClass) (hi : ev.eventID = kAEGetURL)
    (hsub : ev.subevent = some sub) (hns : sub.stringValue = some ns) :
    (ns.utf8Bytes = some (utf8Encode "https://example.com/callback") →
      parse_url_event (some ev) = "https://example.com/callback") ∧
    (ns.utf8Bytes = none → parse_url_event (some ev) = "") := by
  have hcond : ¬(ev.eventClass ≠ kInternetEventClass ∨ ev.eventID ≠ kAEGetURL) := by
    simp [hc, hi]
  constructor
  · intro hb
    simp only [parse_url_event, if_neg hcond, hsub, hns, nsstring_to_string, hb]
    decide
  · intro hb
    simp only [parse_url_event, if_neg hcond, hsub, hns, nsstring_to_string, hb]

/-- C3 witness: the concrete well-formed URL event decodes to the URL, and
the variant whose native string is null decodes to the empty string. -/
theorem tao_C3_witness :
    parse_url_event (some ⟨0x4755524c, 0x4755524c,
        some ⟨some ⟨some (utf8Encode "https://example.com/callback")⟩⟩⟩) =
      "https://example.com/callback" ∧
    parse_url_event (some ⟨0x4755524c, 0x4755524c, some ⟨some ⟨none⟩⟩⟩) = "" :=
  ⟨(tao_C3_wellformed_url_event_decodes
      ⟨0x4755524c, 0x4755524c, some ⟨some ⟨some (utf8Encode "https://example.com/callback")⟩⟩⟩
      ⟨some ⟨some (utf8Encode "https://example.com/callback")⟩⟩
      ⟨some (utf8Encode "https://example.com/callback")⟩ rfl rfl rfl rfl).1 rfl,
    (tao_C3_wellformed_url_event_decodes
      ⟨0x4755524c, 0x4755524c, some ⟨some ⟨none⟩⟩⟩ ⟨some ⟨none⟩⟩ ⟨none⟩
      rfl rfl rfl rfl).2 rfl⟩

/-- C4: any non-null event whose class tag or id tag differs from the
expected constants decodes to the empty string, whatever its direct-object
sub-parameter holds (the sub-parameter is never consulted: the result is
the same for every possible `sub`), and without panicking. -/
theorem tao_C4_foreign_event_yields_empty (c i : Nat) (sub : Option SubDescObj)
    (hmis : c ≠ kInternetEventClass ∨ i ≠ kAEGetURL) :
    parse_url_event (some ⟨c, i, sub⟩) = "" := by
  simp only [parse_url_event, if_pos hmis]

/-- C4 witness: a concrete event with class and id 0 decodes to the empty
string. -/
theorem tao_C4_witness :
    ((0 : Nat) ≠ kInternetEventClass ∨ (0 : Nat) ≠ kAEGetURL) ∧
    parse_url_event (some ⟨0, 0, none⟩) = "" :=
  ⟨Or.inl (by decide), tao_C4_foreign_event_yields_empty 0 0 none (Or.inl (by decide))⟩

/-- C5: a null event handle decodes to the empty string, with no error and
no access to any native event. -/
theorem tao_C5_null_event_yields_empty : parse_url_event none = "" := rfl

/-- C6: every invocation of `handle_url_event_with_reply_event` enqueues
exactly one URL-event carrying the decoded string — the pending queue
grows by exactly that one wrapped `Event.UrlEvent (parse_url_event event)`
for every event, including those whose decoded string is empty (no
filtering of empty results). -/
theorem tao_C6_handler_enqueues_exactly_one (s : AppStateModel) (event : Option AppleEventObj) :
    handle_url_event_with_reply_event s event =
      { s with pending := s.pending ++
          [EventWrapper.StaticEvent (Event.UrlEvent (parse_url_event event))] } ∧
    (handle_url_event_with_reply_event s event).pending.length = s.pending.length + 1 := by
  refine ⟨rfl, ?_⟩
  simp [handle_url_event_with_reply_event, AppState.queue_event]

/-- C7: on any well-formed heap, `new` allocates a fresh (previously
unowned) cell holding an unborrowed `AuxDelegateState` with
`activation_policy = Regular` and `create_default_menu = true`, and stores
its nonzero pointer in the instance's attached-data slot. -/
theorem tao_C7_new_allocates_default_state (h : Heap) (hwf : h.WF) :
    (new h).2.lookup (new h).1.auxStatePtr = some ⟨⟨ActivationPolicy.Regular, true⟩, false⟩ ∧
    h.lookup (new h).1.auxStatePtr = none ∧
    (new h).1.auxStatePtr ≠ 0 := by
  obtain ⟨hpos, hlt⟩ := hwf
  have habs : assocLookup h.cells h.next = none := assocLookup_none_of_lt h.cells h.next hlt
  refine ⟨?_, ?_, ?_⟩
  · simpa [new, Heap.alloc, Heap.lookup] using assocLookup_append_self h.cells h.next _ habs
  · simpa [new, Heap.alloc, Heap.lookup] using habs
  · simp only [new, Heap.alloc]
    omega

/-- C7 witness: constructing from the empty heap stores the default state
behind a fresh nonzero pointer. -/
theorem tao_C7_witness :
    (emptyHeap.WF ∧
      (new emptyHeap).2.lookup (new emptyHeap).1.auxStatePtr =
        some ⟨⟨ActivationPolicy.Regular, true⟩, false⟩) ∧
    emptyHeap.lookup (new emptyHeap).1.auxStatePtr = none ∧
    (new emptyHeap).1.auxStatePtr ≠ 0 :=
  ⟨⟨by decide, (tao_C7_new_allocates_default_state emptyHeap (by decide)).1⟩,
    (tao_C7_new_allocates_default_state emptyHeap (by decide)).2.1,
    (tao_C7_new_allocates_default_state emptyHeap (by decide)).2.2⟩

/-- C8: the registered delegate class carries exactly the six callback
bindings (the `new` class method plus the `dealloc`, did-finish-launching,
will-finish-launching, url-event-with-reply and will-terminate instance
methods, all added before `register`) and the single `auxState`
attached-data slot; and the `lazy_static` cell builds the descriptor at
most once — after any positive number of forces the initializer has run
exactly once and every force returns the same immutable descriptor. -/
theorem tao_C8_descriptor_built_once_with_all_callbacks :
    (buildAppDelegateClass.decl.classMethods = ["new"] ∧
      buildAppDelegateClass.decl.methods =
        ["dealloc", "applicationDidFinishLaunching:", "applicationWillFinishLaunching:",
          "handleUrlEvent:withReplyEvent:", "applicationWillTerminate:"] ∧
      buildAppDelegateClass.decl.ivars = ["auxState"]) ∧
    ∀ n : Nat, (forceN (n + 1) initialLazyCell).inits = 1 ∧
      (forceN (n + 1) initialLazyCell).value = some buildAppDelegateClass := by
  refine ⟨by decide, fun n => ?_⟩
  have h1 : forceN (n + 1) initialLazyCell = ⟨some buildAppDelegateClass, 1⟩ := by
    calc forceN (n + 1) initialLazyCell = forceN n initialLazyCell.force.2 := rfl
      _ = forceN n ⟨some buildAppDelegateClass, 1⟩ := rfl
      _ = ⟨some buildAppDelegateClass, 1⟩ := forceN_cached n _ 1
  rw [h1]
  exact ⟨rfl, rfl⟩

/-- C9: the spec's lifecycle scenario — construct, will-finish-launching,
did-finish-launching, will-terminate, destroy — ends in a plain `ok`
outcome (no borrow-conflict panic, no double free) with `MarkLaunched`
invoked exactly once and handed the instance, `MarkExiting` invoked
exactly once, and the heap empty again: the one `AuxDelegateState`
allocated was reclaimed exactly once. -/
theorem tao_C9_lifecycle_scenario_counts :
    lifecycleScenario =
      CallOutcome.ok (⟨1⟩, ⟨[], 2⟩,
        { pending := [], launchedWith := [⟨1⟩], exits := 1, urlHandlerRegs := 1 }) := by
  decide

/-- C10: converting any non-null native string whose bytes are not valid
UTF-8 neither fails nor panics — `nsstring_to_string` totally returns the
lossily decoded string, and that string contains the Unicode replacement
character U+FFFD in place of the invalid sequences. -/
theorem tao_C10_lossy_decoding_total (bs : List Nat) (hinv : validUtf8 bs = false) :
    nsstring_to_string (some ⟨some bs⟩) = String.mk (lossyDecode bs) ∧
    repChar ∈ lossyDecode bs :=
  ⟨rfl, repChar_mem_lossyDecodeF_of_invalid bs.length bs hinv le_rfl⟩

/-- C10 witness: the concrete invalid byte sequence `[0xFF, 0x61]` decodes
without failure and its decoding contains U+FFFD. -/
theorem tao_C10_witness :
    validUtf8 [0xFF, 0x61] = false ∧
    (nsstring_to_string (some ⟨some [0xFF, 0x61]⟩) = String.mk (lossyDecode [0xFF, 0x61]) ∧
      repChar ∈ lossyDecode [0xFF, 0x61]) :=
  ⟨by decide, tao_C10_lossy_decoding_total [0xFF, 0x61] (by decide)⟩

end Tao
